import Mathlib

/-!
Verification of the RoboFont extension-bundle format and integrity engine
(`Lib/extensionBundle.py`, with the legacy reference implementation
`Lib/_extensionBundle.py`), as a shallow embedding in Lean.

Paths are modelled as strings (POSIX separators, no normalisation); the state of
the file system is abstracted to the predicates the embedded functions consult
(`DiskState` / `SaveDisk`), and the installed-extension registry consulted by
requirement resolution is an abstract `String → Option String` lookup, as the
specification places it outside the core.

Python string operations used by the source (`strip`, `split`, `startswith`,
`endswith`) are re-implemented over `List Char` so that every definition
evaluates inside the kernel; the inputs exercised by the source are ASCII, for
which these agree with Python's semantics.
-/

/-- Python `str.strip()` whitespace test (the ASCII whitespace characters). -/
def pySpace (c : Char) : Bool :=
  c = ' ' ∨ c = '\t' ∨ c = '\n' ∨ c = '\r' ∨ c = '\x0b' ∨ c = '\x0c'

/-- Python `str.strip()` on a character list: drop leading and trailing whitespace. -/
def pyStripChars (cs : List Char) : List Char :=
  ((cs.dropWhile pySpace).reverse.dropWhile pySpace).reverse

/-- Python `str.strip()`. -/
def pyStrip (s : String) : String := ⟨pyStripChars s.data⟩

/-- Python `str.split(sep)` for a one-character separator: split on every
occurrence, keeping empty fragments.  The result is always non-empty. -/
def splitOnChar (sep : Char) : List Char → List (List Char)
  | [] => [[]]
  | c :: cs =>
    if c = sep then [] :: splitOnChar sep cs
    else
      match splitOnChar sep cs with
      | [] => [[c]]
      | h :: t => (c :: h) :: t

/-- Python `str.split(sep)` for a two-character separator (`"=="`, `">="`):
scan left to right, splitting at each non-overlapping occurrence. -/
def splitOnPair (s₁ s₂ : Char) : List Char → List (List Char)
  | [] => [[]]
  | [c] => [[c]]
  | c :: d :: cs =>
    if c = s₁ ∧ d = s₂ then [] :: splitOnPair s₁ s₂ cs
    else
      match splitOnPair s₁ s₂ (d :: cs) with
      | [] => [[c]]
      | h :: t => (c :: h) :: t

/-- Python `s.endswith(suf)` on character lists. -/
def listEndsWith (cs suf : List Char) : Bool :=
  cs.reverse.take suf.length = suf.reverse

/-- Python `s.endswith(suf)`. -/
def pyEndsWith (s suf : String) : Bool := listEndsWith s.data suf.data

/-- Python `s.startswith("#")` on character lists. -/
def listStartsWithHash : List Char → Bool
  | c :: _ => c = '#'
  | [] => false

/-- Python `s.startswith("#")`, the only such test the source performs. -/
def startsWithHash (s : String) : Bool := listStartsWithHash s.data

/-- `pathlib.PurePath.name`: the final path component. -/
def pathBaseName (p : String) : String := ⟨(splitOnChar '/' p.data).getLastD []⟩

/-- `pathlib.PurePath.suffix`: the extension of the final component, including the
dot; empty when the final component has no dot, starts with its only dot
(hidden files like `.hash`), or ends in a dot. -/
def pathSuffix (p : String) : String :=
  let nameCs := (splitOnChar '/' p.data).getLastD []
  match splitOnChar '.' nameCs with
  | [] => ""
  | [_] => ""
  | parts =>
    let lastPart := parts.getLastD []
    if lastPart = [] then ""
    else if parts.length = 2 ∧ parts.headD ['.'] = [] then ""
    else ⟨'.' :: lastPart⟩

/- ----------------------------------------------------------------------
The integrity hash (`ExtensionBundle.extensionHash`).

A bundle's file tree is presented the way `os.walk` delivers it: `entries`
enumerates the regular files (each exactly once, in whatever order the file
system reports them) as bundle-root-relative paths split into components, and
`content` gives each file's raw bytes.

SHA-1 itself is left abstract: the functions below compute the exact sequence
of `digest.update(...)` arguments the source feeds to the outer SHA-1 object
(the passphrase seed, then per file the 20-byte sub-digest — recorded here by
the string it hashes — followed by the file's bytes; streaming a file in fixed
1 MiB chunks feeds the same byte sequence as one chunk).  The hexadecimal
digest is a function of this update stream, so equal streams give equal
digests.
---------------------------------------------------------------------- -/

/-- A file tree as enumerated by `os.walk`: root-relative file paths (split into
components) plus each file's byte content. -/
structure FileTree where
  entries : List (List String)
  content : List String → List Nat

/-- The base name of a root-relative path (its last component). -/
def walkFileName (p : List String) : String := p.getLastD ""

/-- The exclusion test of `extensionHash`: the `Icon\r` sentinel, the hash marker
`.hash` (`self.hashPath.name`), and any file name ending in `.DS_Store`. -/
def hashIgnored (nm : String) : Bool :=
  nm = "Icon\r" ∨ nm = ".hash" ∨ pyEndsWith nm ".DS_Store"

/-- The walk entries retained by `extensionHash` after the exclusions. -/
def keptPaths (t : FileTree) : List (List String) :=
  t.entries.filter (fun p => ¬ hashIgnored (walkFileName p))

/-- Sort key realising `sorted(pathToDigest)` on `pathlib.Path` objects: `Path`
compares as the tuple of its parts with Python string comparison (code points),
so a path becomes the list of its components' code-point lists, ordered
lexicographically. -/
def pathSortKey (p : List String) : List (List Nat) :=
  p.map (fun s => s.data.map Char.toNat)

/-- The comparison used to sort the collected paths. -/
def pathLe (p q : List String) : Prop := pathSortKey p ≤ pathSortKey q

instance : DecidableRel pathLe := fun p q =>
  inferInstanceAs (Decidable (pathSortKey p ≤ pathSortKey q))

theorem charCodes_injective :
    Function.Injective (fun s : String => s.data.map Char.toNat) := by
  intro a b h
  have hd : a.data = b.data := by
    have hinj : Function.Injective Char.toNat := fun x y hxy => Char.ext (UInt32.ext hxy)
    exact List.map_injective_iff.mpr hinj h
  cases a; cases b; exact congrArg String.mk hd

theorem pathSortKey_injective : Function.Injective pathSortKey :=
  List.map_injective_iff.mpr charCodes_injective

instance : IsTotal (List String) pathLe := ⟨fun _ _ => le_total _ _⟩

instance : IsTrans (List String) pathLe := ⟨fun _ _ _ h₁ h₂ => le_trans h₁ h₂⟩

instance : IsAntisymm (List String) pathLe :=
  ⟨fun _ _ h₁ h₂ => pathSortKey_injective (le_antisymm h₁ h₂)⟩

/-- The retained paths in the order they are folded into the digest:
`for filePath in sorted(pathToDigest)`. -/
def sortedWalkPaths (t : FileTree) : List (List String) :=
  (keptPaths t).insertionSort pathLe

/-- One `digest.update(...)` argument of the outer SHA-1 object. -/
inductive HashChunk
  | seed (passphrase : String)
  | subDigest (hashedText : String)
  | fileBytes (bs : List Nat)
deriving DecidableEq, Repr

/-- The update stream `Lib/extensionBundle.py`'s `extensionHash` feeds to SHA-1:
the passphrase, then for each retained path in sorted order the sub-digest of
`filePath.name` (the base name) followed by the file's bytes. -/
def extensionHashStream (t : FileTree) (passphrase : String) : List HashChunk :=
  HashChunk.seed passphrase ::
    (sortedWalkPaths t).flatMap
      (fun p => [HashChunk.subDigest (walkFileName p), HashChunk.fileBytes (t.content p)])

/-- The root-relative path string digested by the legacy implementation:
`filePath[len(path):]`, i.e. the components joined by the separator with a
leading separator. -/
def relPathString (p : List String) : String := ⟨p.flatMap (fun s => '/' :: s.data)⟩

/-- The legacy sort: `sorted(pathToDigest)` over path *strings*.  All collected
strings share the bundle-root prefix, so their order is the order of the
root-relative strings, compared by code points. -/
def legacyPathLe (p q : List String) : Prop :=
  (relPathString p).data.map Char.toNat ≤ (relPathString q).data.map Char.toNat

instance : DecidableRel legacyPathLe := fun p q =>
  inferInstanceAs
    (Decidable ((relPathString p).data.map Char.toNat ≤ (relPathString q).data.map Char.toNat))

/-- The update stream of the legacy `Lib/_extensionBundle.py` `extensionHash`:
as above, but the sub-digest hashes the bundle-root-relative path string. -/
def extensionHashStreamLegacy (t : FileTree) (passphrase : String) : List HashChunk :=
  HashChunk.seed passphrase ::
    ((keptPaths t).insertionSort legacyPathLe).flatMap
      (fun p => [HashChunk.subDigest (relPathString p), HashChunk.fileBytes (t.content p)])

/-- Two single-file trees whose only files share base name and content but sit in
different sub-directories. -/
def treeSubOne : FileTree := ⟨[["sub1", "file.py"]], fun _ => [104, 105]⟩

/-- As `treeSubOne`, with the file placed in a different sub-directory. -/
def treeSubTwo : FileTree := ⟨[["sub2", "file.py"]], fun _ => [104, 105]⟩

/-- Claim C1 (code_bug evaluation): in `Lib/extensionBundle.py` the per-path
sub-digest hashes only the file's base name (`filePath.name`), not the
bundle-root-relative path, so the two trees `sub1/file.py` and `sub2/file.py` —
identical base names and contents, different relative directory placement —
feed *identical* update streams to SHA-1 and therefore produce identical
digests; the legacy implementation digests the relative path and distinguishes
them, as the claim (and the spec) state. -/
theorem extensionHash_digests_base_name_only :
    extensionHashStream treeSubOne "" = extensionHashStream treeSubTwo ""
    ∧ extensionHashStream treeSubOne "" =
        [HashChunk.seed "", HashChunk.subDigest "file.py", HashChunk.fileBytes [104, 105]]
    ∧ treeSubOne.entries ≠ treeSubTwo.entries
    ∧ extensionHashStreamLegacy treeSubOne "" ≠ extensionHashStreamLegacy treeSubTwo "" := by
  refine ⟨by decide, by decide, by decide, by decide⟩

theorem flatMap_congr_of_mem {α β : Type} {l : List α} {f g : α → List β}
    (h : ∀ x ∈ l, f x = g x) : l.flatMap f = l.flatMap g := by
  induction l with
  | nil => rfl
  | cons a t ih =>
    simp only [List.flatMap_cons]
    rw [h a (List.mem_cons_self a t), ih (fun x hx => h x (List.mem_cons_of_mem a hx))]

/-- Claim C2: `extensionHash` is independent of the order in which the file-system
walk enumerates the files: any two trees whose retained files (after excluding
the hash marker, the `Icon\r` sentinel and `.DS_Store` files) form the same set
of relative paths with byte-identical contents feed SHA-1 the same update
stream under the same passphrase, hence return the same lowercase hexadecimal
digest — the explicit sort over the collected paths never trusts the walk
order. -/
theorem extensionHash_deterministic (t₁ t₂ : FileTree) (passphrase : String)
    (hperm : (keptPaths t₁).Perm (keptPaths t₂))
    (hcont : ∀ p ∈ keptPaths t₁, t₁.content p = t₂.content p) :
    extensionHashStream t₁ passphrase = extensionHashStream t₂ passphrase := by
  have hsorted : sortedWalkPaths t₁ = sortedWalkPaths t₂ := by
    refine List.eq_of_perm_of_sorted
      (((List.perm_insertionSort pathLe _).trans hperm).trans
        (List.perm_insertionSort pathLe _).symm)
      (List.sorted_insertionSort pathLe _) (List.sorted_insertionSort pathLe _)
  have hmem : ∀ p ∈ sortedWalkPaths t₁, t₁.content p = t₂.content p := by
    intro p hp
    exact hcont p ((List.perm_insertionSort pathLe (keptPaths t₁)).mem_iff.mp hp)
  simp only [extensionHashStream, hsorted]
  refine congrArg _ (flatMap_congr_of_mem ?_)
  intro p hp
  rw [hmem p (hsorted ▸ hp)]

/-- A pair of concrete trees enumerating the same retained files in different
walk orders. -/
def treeOrderA : FileTree :=
  ⟨[["lib", "a.py"], ["lib", "b.py"], [".DS_Store"]],
    fun p => if p = ["lib", "a.py"] then [1, 2] else [3]⟩

/-- The same logical tree as `treeOrderA`, enumerated in the opposite order and
with a different excluded noise file. -/
def treeOrderB : FileTree :=
  ⟨[["Icon\r"], ["lib", "b.py"], ["lib", "a.py"]],
    fun p => if p = ["lib", "a.py"] then [1, 2] else [3]⟩

theorem extensionHash_deterministic_witness :
    (keptPaths treeOrderA).Perm (keptPaths treeOrderB)
    ∧ extensionHashStream treeOrderA "pass" = extensionHashStream treeOrderB "pass" :=
  ⟨by decide,
    extensionHash_deterministic treeOrderA treeOrderB "pass" (by decide)
      (fun p _ => rfl)⟩

/- ----------------------------------------------------------------------
Requirements parsing and resolution (`Lib/_extensionBundle.py`,
`iterParseRequirements` / `resolveRequirements`).

The generator is materialised into a list; a Python `ValueError` from the
two-element tuple unpacking of `split("==")` / `split(">=")` is modelled as
`none`.  The installed-extension registry the resolver consults (does a bundle
with this name exist, and at which version) is the out-of-scope collaborator
of the specification and is passed in as an abstract lookup.
---------------------------------------------------------------------- -/

/-- The two version-constraint comparators of the requirements grammar. -/
inductive ReqCmp
  | mustEqual
  | equalOrBigger
deriving DecidableEq, Repr

/-- One parsed requirement: the stripped name, and for constrained entries the
comparator, the stripped version text and the stripped original line. -/
structure ReqEntry where
  key : String
  constraint : Option (ReqCmp × String × String)
deriving DecidableEq, Repr

/-- One loop iteration of `iterParseRequirements` on a raw line: `some none`
when the line is skipped (blank or whole-line comment), `some (some e)` when it
yields an entry, `none` when the tuple unpacking of `split` raises. -/
def parseRequirementLine (raw : String) : Option (Option ReqEntry) :=
  let k := pyStripChars raw.data
  if k = [] then some none
  else if listStartsWithHash k then some none
  else
    let l := (splitOnChar '#' k).headD []
    if (splitOnPair '=' '=' l).length ≥ 2 then
      match splitOnPair '=' '=' l with
      | [nm, ver] =>
        some (some ⟨⟨pyStripChars nm⟩, some (ReqCmp.mustEqual, ⟨pyStripChars ver⟩, ⟨pyStripChars l⟩)⟩)
      | _ => none
    else if (splitOnPair '>' '=' l).length ≥ 2 then
      match splitOnPair '>' '=' l with
      | [nm, ver] =>
        some (some ⟨⟨pyStripChars nm⟩, some (ReqCmp.equalOrBigger, ⟨pyStripChars ver⟩, ⟨pyStripChars l⟩)⟩)
      | _ => none
    else some (some ⟨⟨pyStripChars l⟩, none⟩)

/-- The loop of `iterParseRequirements`, threading the `done` set of names
already yielded. -/
def iterParseRequirementsGo : List String → List String → Option (List ReqEntry)
  | [], _ => some []
  | raw :: rest, done =>
    match parseRequirementLine raw with
    | none => none
    | some none => iterParseRequirementsGo rest done
    | some (some e) =>
      if e.key ∈ done then iterParseRequirementsGo rest done
      else (iterParseRequirementsGo rest (e.key :: done)).map (e :: ·)

/-- `iterParseRequirements(requirements)`, materialised. -/
def iterParseRequirements (requirements : String) : Option (List ReqEntry) :=
  iterParseRequirementsGo ((splitOnChar '\n' requirements.data).map String.mk) []

/-- The same parse without the duplicate suppression: every effective line's
entry, in order.  Used to state what the `done` set achieves. -/
def parseAllRequirementLines : List String → Option (List ReqEntry)
  | [] => some []
  | raw :: rest =>
    match parseRequirementLine raw with
    | none => none
    | some none => parseAllRequirementLines rest
    | some (some e) => (parseAllRequirementLines rest).map (e :: ·)

/-- Keep, for each name not in `seen`, only the first entry carrying it; order
of first appearance is preserved.  This is the specification-side description
of the duplicate suppression. -/
def dropSeenByName (seen : List String) : List ReqEntry → List ReqEntry
  | [] => []
  | e :: rest =>
    if e.key ∈ seen then dropSeenByName seen rest
    else e :: dropSeenByName (e.key :: seen) rest

theorem parseRequirementLine_skips (c : String)
    (h : pyStrip c = "" ∨ startsWithHash (pyStrip c) = true) :
    parseRequirementLine c = some none := by
  rcases h with h | h
  · have hdata : pyStripChars c.data = [] := by
      have := congrArg String.data h
      simpa [pyStrip] using this
    simp [parseRequirementLine, hdata]
  · unfold startsWithHash pyStrip at h
    unfold parseRequirementLine
    cases hk : pyStripChars c.data with
    | nil => simp
    | cons c₀ cs =>
      simp only [hk, listStartsWithHash, decide_eq_true_eq] at h
      simp [hk, listStartsWithHash, h]

theorem iterParseRequirementsGo_dropSeen (lines : List String) (done : List String) :
    iterParseRequirementsGo lines done =
      (parseAllRequirementLines lines).map (dropSeenByName done) := by
  induction lines generalizing done with
  | nil => rfl
  | cons raw rest ih =>
    simp only [iterParseRequirementsGo, parseAllRequirementLines]
    cases hp : parseRequirementLine raw with
    | none => rfl
    | some o =>
      cases o with
      | none => exact ih done
      | some e =>
        by_cases hmem : e.key ∈ done
        · simp only [if_pos hmem]
          rw [ih done]
          cases hall : parseAllRequirementLines rest <;>
            simp [dropSeenByName, hmem]
        · simp only [if_neg hmem]
          rw [ih (e.key :: done)]
          cases hall : parseAllRequirementLines rest <;>
            simp [dropSeenByName, hmem]

/-- Claim C8: the four-line example parses to exactly the expected ordered
entries; a blank line or a line starting with the comment marker can be
inserted anywhere without changing the parse; and the parse equals the
unsuppressed per-line parse with every repeated name (exact text match on the
stripped name portion) dropped after its first occurrence, preserving the
order of first appearance. -/
theorem iterParseRequirements_behaviour :
    iterParseRequirements "drawBot\nBatch\nfoo >= 3.0\nbar == 4.5" =
      some [⟨"drawBot", none⟩, ⟨"Batch", none⟩,
            ⟨"foo", some (ReqCmp.equalOrBigger, "3.0", "foo >= 3.0")⟩,
            ⟨"bar", some (ReqCmp.mustEqual, "4.5", "bar == 4.5")⟩]
    ∧ (∀ (pre post : List String) (c : String) (done : List String),
        (pyStrip c = "" ∨ startsWithHash (pyStrip c) = true) →
          iterParseRequirementsGo (pre ++ c :: post) done =
            iterParseRequirementsGo (pre ++ post) done)
    ∧ (∀ requirements : String,
        iterParseRequirements requirements =
          (parseAllRequirementLines
              ((splitOnChar '\n' requirements.data).map String.mk)).map
            (dropSeenByName [])) := by
  refine ⟨by decide, ?_, ?_⟩
  · intro pre post c done hc
    induction pre generalizing done with
    | nil =>
      simp only [List.nil_append, iterParseRequirementsGo,
        parseRequirementLine_skips c hc]
    | cons raw rest ih =>
      simp only [List.cons_append, iterParseRequirementsGo]
      cases parseRequirementLine raw with
      | none => rfl
      | some o =>
        cases o with
        | none => exact ih done
        | some e =>
          by_cases hmem : e.key ∈ done
          · simp only [if_pos hmem]; exact ih done
          · simp only [if_neg hmem]
            exact congrArg (Option.map (e :: ·)) (ih (e.key :: done))
  · intro requirements
    exact iterParseRequirementsGo_dropSeen _ []

theorem iterParseRequirements_behaviour_witness :
    (pyStrip "  # note" = "" ∨ startsWithHash (pyStrip "  # note") = true)
    ∧ iterParseRequirementsGo ["a", "  # note", "b"] [] =
        iterParseRequirementsGo ["a", "b"] [] :=
  ⟨Or.inr (by decide),
    iterParseRequirements_behaviour.2.1 ["a"] ["b"] "  # note" [] (Or.inr (by decide))⟩

/- ----------------------------------------------------------------------
Version comparison and requirement resolution.
---------------------------------------------------------------------- -/

/-- The numeric value of a decimal digit list. -/
def decimalValue (cs : List Char) : Nat :=
  cs.foldl (fun acc c => acc * 10 + (c.toNat - 48)) 0

/-- Modelled from the external `packaging.version.Version` parser, restricted to
the plain dotted-numeric release versions the requirements grammar and the
claims exercise: the release component list, or `none` (the parser raising) for
anything else. -/
def versionRelease (s : String) : Option (List Nat) :=
  let parts := splitOnChar '.' s.data
  if parts.all (fun p => ¬ p.isEmpty ∧ p.all Char.isDigit) then
    some (parts.map decimalValue)
  else none

/-- `packaging` release comparison: component-wise, with missing trailing
components reading as zero (an exhausted left side is greater-or-equal exactly
when the remaining right components are all zero; an exhausted right side is
always dominated, components being non-negative). -/
def releaseGE : List Nat → List Nat → Bool
  | [], ys => ys.all (· = 0)
  | _ :: _, [] => true
  | x :: xs, y :: ys => if x = y then releaseGE xs ys else decide (y < x)

/-- `_requirementCompareVersionMustBeEqual(v1, v2)`:
`version.Version(v1) == version.Version(v2)`; `none` models the parser raising. -/
def pyVersionMustBeEqual (v₁ v₂ : String) : Option Bool :=
  match versionRelease v₁, versionRelease v₂ with
  | some a, some b => some (releaseGE a b ∧ releaseGE b a)
  | _, _ => none

/-- `_requirementCompareVersionCompareEqualOrBigger(v1, v2)`:
`version.Version(v1) >= version.Version(v2)`. -/
def pyVersionEqualOrBigger (v₁ v₂ : String) : Option Bool :=
  match versionRelease v₁, versionRelease v₂ with
  | some a, some b => some (releaseGE a b)
  | _, _ => none

/-- Insertion into the `required` set, modelled as a duplicate-free list. -/
def insertSet (l : List String) (s : String) : List String :=
  if s ∈ l then l else l ++ [s]

/-- The loop body of `resolveRequirements`.  For each entry the constructed
sibling bundle is looked up in the abstract registry; a missing bundle adds the
bare name, and a constrained entry then calls
`compare(versionNumber, bundle.version)` — note the argument order: the
*required* version is passed first.  `bundle.version` of a missing bundle is
`None`, which makes `version.Version` raise (`none`). -/
def resolveRequirementsGo (registry : String → Option String) :
    List ReqEntry → List String → Option (List String)
  | [], acc => some acc
  | e :: rest, acc =>
    let acc₁ := if (registry e.key).isNone then insertSet acc e.key else acc
    match e.constraint with
    | none => resolveRequirementsGo registry rest acc₁
    | some (cmp, verNum, line) =>
      match registry e.key with
      | none => none
      | some installed =>
        match (match cmp with
               | ReqCmp.mustEqual => pyVersionMustBeEqual verNum installed
               | ReqCmp.equalOrBigger => pyVersionEqualOrBigger verNum installed) with
        | none => none
        | some ok =>
          resolveRequirementsGo registry rest (if ok then acc₁ else insertSet acc₁ line)

/-- `resolveRequirements`: the set (here: duplicate-free list) of unmet
requirement descriptions. -/
def resolveRequirements (requirements : String) (registry : String → Option String) :
    Option (List String) :=
  if requirements = "" then some []
  else
    match iterParseRequirements requirements with
    | none => none
    | some entries => resolveRequirementsGo registry entries []

/-- A registry with a single installed bundle: `foo` at version `4.0`. -/
def registryFooFourZero : String → Option String :=
  fun nm => if nm = "foo" then some "4.0" else none

/-- Claim C7 (code_bug evaluation): with `foo` installed at version `4.0`, the
requirement `foo >= 3.0` is satisfied under the claim's (and the grammar's)
reading — the installed version is greater than or equal to the required one,
as the second conjunct checks with the comparator itself — yet
`resolveRequirements` reports the line as unmet, because the source passes the
*required* version as the first argument of
`_requirementCompareVersionCompareEqualOrBigger(v1, v2) = (v1 >= v2)`,
turning the minimum-version constraint into a maximum-version test. -/
theorem resolveRequirements_reverses_comparison :
    resolveRequirements "foo >= 3.0" registryFooFourZero = some ["foo >= 3.0"]
    ∧ pyVersionEqualOrBigger "4.0" "3.0" = some true := by
  refine ⟨by decide, by decide⟩

/- ----------------------------------------------------------------------
URL validation (`isValidURL`), embedding the scheme/netloc extraction of
`urllib.parse.urlsplit` for ASCII inputs.
---------------------------------------------------------------------- -/

/-- Characters `urlsplit` strips from both ends of the URL (WHATWG: C0 controls
and space). -/
def isC0OrSpace (c : Char) : Bool := c.toNat ≤ 32

/-- The end-stripping pass of `urlsplit`. -/
def stripC0Space (cs : List Char) : List Char :=
  ((cs.dropWhile isC0OrSpace).reverse.dropWhile isC0OrSpace).reverse

/-- `urlsplit` removes every tab, carriage return and line feed. -/
def removeUnsafeURLBytes (cs : List Char) : List Char :=
  cs.filter (fun c => ¬ (c = '\t' ∨ c = '\r' ∨ c = '\n'))

/-- The characters allowed in a URL scheme after the leading letter. -/
def isSchemeChar (c : Char) : Bool := c.isAlpha ∨ c.isDigit ∨ c = '+' ∨ c = '-' ∨ c = '.'

/-- Does the candidate scheme start with an ASCII letter? -/
def listStartsAlpha : List Char → Bool
  | c :: _ => c.isAlpha
  | [] => false

/-- Scheme detection of `urlsplit`: the text before the first `:` is the scheme
when it is non-empty, starts with a letter and consists of scheme characters;
it is lower-cased and consumed together with the colon. -/
def splitScheme (cs : List Char) : List Char × List Char :=
  let schemeCand := cs.takeWhile (· ≠ ':')
  if schemeCand.length < cs.length ∧ listStartsAlpha schemeCand
      ∧ schemeCand.all isSchemeChar then
    (schemeCand.map Char.toLower, cs.drop (schemeCand.length + 1))
  else ([], cs)

/-- Netloc extraction: everything after `//` up to the first `/`, `?` or `#`. -/
def takeNetloc (cs : List Char) : List Char :=
  cs.takeWhile (fun c => ¬ (c = '/' ∨ c = '?' ∨ c = '#'))

/-- `urllib.parse.urlsplit`, restricted to the two components `isValidURL`
consults.  `none` models the `ValueError` raised for a mismatched IPv6 bracket
in the network location (the only exception reachable for string input). -/
def urlSchemeNetloc (url : String) : Option (String × String) :=
  let cs := removeUnsafeURLBytes (stripC0Space url.data)
  let pair := splitScheme cs
  if pair.2.take 2 = ['/', '/'] then
    let netloc := takeNetloc (pair.2.drop 2)
    if ('[' ∈ netloc ∧ ']' ∉ netloc) ∨ (']' ∈ netloc ∧ '[' ∉ netloc) then none
    else some (⟨pair.1⟩, ⟨netloc⟩)
  else some (⟨pair.1⟩, "")

/-- `isValidURL` from `Lib/extensionBundle.py`: `urlparse` wrapped in
`try/except`, succeeding when both the scheme and the network location are
non-empty (`all([result.scheme, result.netloc])`). -/
def isValidURL (url : String) : Bool :=
  match urlSchemeNetloc url with
  | none => false
  | some (scheme, netloc) => scheme ≠ "" ∧ netloc ≠ ""

/-- A dynamically-typed value, for stating what non-string inputs do:
`urlparse` raises a `TypeError` on every non-string, which the `except` arm of
`isValidURL` converts to `False`. -/
inductive PyVal
  | strVal (s : String)
  | intVal (i : Int)
  | boolVal (b : Bool)
  | noneVal
deriving DecidableEq, Repr

/-- `isValidURL` over dynamically-typed input. -/
def isValidURLVal : PyVal → Bool
  | .strVal s => isValidURL s
  | _ => false

/-- Claim C9 counterexample: the space-joined duplicate URL
`"https://a.com https://a.com"` is *accepted* by `isValidURL`, not rejected as
the claim states — `urlsplit` reads `"a.com https:"` as the network location
(it stops only at `/`, `?` or `#`), both components are non-empty, and the
source contains no whitespace or duplicate check at all. -/
theorem isValidURL_spacejoined_accepted :
    isValidURL "https://a.com https://a.com" = true := by decide

/-- Claim C9 (amended): `isValidURL` accepts exactly the strings whose
`urlparse` result has a non-empty scheme and a non-empty network location;
`"https://example.com"` is accepted, `"/local/path"` and every non-string
value are rejected, but the space-joined duplicate
`"https://a.com https://a.com"` is accepted — no embedded-whitespace or
duplicate-URL check exists in the code. -/
theorem isValidURL_characterisation :
    isValidURL "https://example.com" = true
    ∧ isValidURL "/local/path" = false
    ∧ isValidURL "https://a.com https://a.com" = true
    ∧ (∀ v : PyVal, (∀ s, v ≠ PyVal.strVal s) → isValidURLVal v = false)
    ∧ (∀ url : String, isValidURL url = true ↔
        ∃ sn : String × String, urlSchemeNetloc url = some sn ∧ sn.1 ≠ "" ∧ sn.2 ≠ "") := by
  refine ⟨by decide, by decide, by decide, ?_, ?_⟩
  · intro v hv
    cases v with
    | strVal s => exact absurd rfl (hv s)
    | intVal i => rfl
    | boolVal b => rfl
    | noneVal => rfl
  · intro url
    unfold isValidURL
    cases hu : urlSchemeNetloc url with
    | none => simp
    | some sn =>
      cases sn with
      | mk scheme netloc => simp [decide_eq_true_eq]

theorem isValidURL_characterisation_witness :
    isValidURLVal (PyVal.intVal 3) = false :=
  isValidURL_characterisation.2.2.2.1 (PyVal.intVal 3) (fun _ h => nomatch h)

/- ----------------------------------------------------------------------
The `ExtensionBundle` dataclass of `Lib/extensionBundle.py` and its paths.
---------------------------------------------------------------------- -/

/-- A Python `bool`-or-`int` flag value (`html`, `launchAtStartUp`,
`nestInSubmenus`): `bool` is an `int` subtype, so `isinstance(x, int)` holds
for both constructors, and `True`/`False` sit in `{0, 1}`. -/
inductive PyFlag
  | ofBool (b : Bool)
  | ofInt (i : Int)
deriving DecidableEq, Repr

/-- Python truthiness of a flag value. -/
def PyFlag.truthy : PyFlag → Bool
  | .ofBool b => b
  | .ofInt i => i ≠ 0

/-- A `shortKey` value: a string or a `(modifier, character)` pair. -/
inductive ShortKey
  | ofString (s : String)
  | ofPair (modifier : Int) (character : String)
deriving DecidableEq, Repr

/-- The `AddToMenuDict` `TypedDict`; `none` marks an absent key. -/
structure AddToMenuDict where
  path : Option String := none
  preferredName : Option String := none
  shortKey : Option ShortKey := none
  nestInSubmenus : Option PyFlag := none
deriving DecidableEq, Repr

/-- The `ExtensionBundle` dataclass, at its declared field types.  The float
`timeStamp` is abstracted to an integer: the source only writes `time.time()`
into it, tests its truthiness and copies it around. -/
structure ExtensionBundle where
  extensionName : Option String := none
  developer : Option String := none
  developerURL : Option String := none
  launchAtStartUp : Option PyFlag := none
  mainScript : Option String := none
  version : Option String := none
  addToMenu : List AddToMenuDict := []
  path : Option String := none
  html : Option PyFlag := none
  documentationURL : Option String := none
  uninstallScript : Option String := none
  timeStamp : Option Int := none
  hash : String := ""
  requiresVersionMajor : Option String := none
  requiresVersionMinor : Option String := none
  expireDate : Option String := none
  license : String := ""
  requirements : String := ""
deriving DecidableEq, Repr

/-- The class constant `fileExtension`. -/
def fileExtension : String := ".roboFontExt"

/-- `bundlePath`: the bound path when one is set (`Path` objects are always
truthy), else `Path(self.extensionName or "extension")`. -/
def ExtensionBundle.bundlePath (b : ExtensionBundle) : String :=
  match b.path with
  | some p => p
  | none =>
    match b.extensionName with
    | some nm => if nm ≠ "" then nm else "extension"
    | none => "extension"

/-- `libFolder = bundlePath / "lib"`. -/
def ExtensionBundle.libFolder (b : ExtensionBundle) : String := b.bundlePath ++ "/lib"

/-- `htmlFolder = bundlePath / "html"`. -/
def ExtensionBundle.htmlFolder (b : ExtensionBundle) : String := b.bundlePath ++ "/html"

/-- `resourcesFolder = bundlePath / "resources"`. -/
def ExtensionBundle.resourcesFolder (b : ExtensionBundle) : String :=
  b.bundlePath ++ "/resources"

/-- `infoPlistPath = bundlePath / "info.plist"`. -/
def ExtensionBundle.infoPlistPath (b : ExtensionBundle) : String :=
  b.bundlePath ++ "/info.plist"

/-- `hashPath = bundlePath / ".hash"`. -/
def ExtensionBundle.hashPath (b : ExtensionBundle) : String := b.bundlePath ++ "/.hash"

/- ----------------------------------------------------------------------
`ExtensionBundle.validate`.
---------------------------------------------------------------------- -/

/-- The file-system facts `validate` consults: existence of paths, whether the
bytes at `infoPlistPath` parse as a plist, and the syntax-error messages the
host parser reports for the `lib/**/*.py` files, in glob order. -/
structure DiskState where
  pathExists : String → Bool
  plistParses : Bool
  pySyntaxErrors : List String

/-- Parse a non-empty all-digit character list. -/
def digitsToNat? (cs : List Char) : Option Nat :=
  if ¬ cs.isEmpty ∧ cs.all Char.isDigit then some (decimalValue cs) else none

/-- Gregorian leap year, as `datetime` computes it. -/
def isLeapYear (y : Nat) : Bool := (y % 4 = 0 ∧ y % 100 ≠ 0) ∨ y % 400 = 0

/-- Days in a month, as `datetime` validates them. -/
def daysInMonth (y m : Nat) : Nat :=
  if m = 2 then (if isLeapYear y then 29 else 28)
  else if m = 4 ∨ m = 6 ∨ m = 9 ∨ m = 11 then 30
  else 31

/-- Success of `datetime.strptime(s, "%Y-%m-%d")`: a 4-digit year (at least 1),
a 1-2 digit month in 1..12, a 1-2 digit day valid for the month, nothing left
over. -/
def validExpireDate (s : String) : Bool :=
  match splitOnChar '-' s.data with
  | [ys, ms, ds] =>
    match digitsToNat? ys, digitsToNat? ms, digitsToNat? ds with
    | some y, some m, some dd =>
      ys.length = 4 ∧ (ms.length = 1 ∨ ms.length = 2) ∧ (ds.length = 1 ∨ ds.length = 2)
        ∧ 1 ≤ y ∧ 1 ≤ m ∧ m ≤ 12 ∧ 1 ≤ dd ∧ dd ≤ daysInMonth y m
    | _, _, _ => false
  | _ => false

/-- The expire-date format message; its apostrophes are built from the
character code. -/
def expireDateFormatError : String :=
  "expire date is not set in the correct format: "
    ++ ⟨[Char.ofNat 39]⟩ ++ "YYYY-MM-DD" ++ ⟨[Char.ofNat 39]⟩ ++ ". "

/-- One required-field check of `validate`: at the declared `Optional[str]`
field types, `isinstance(attribute, str)` fails exactly for `None`
(interpolated into the message as `None`), and a present string errs when
empty. -/
def requiredFieldCheck (label : String) (attr : Option String) : List String :=
  match attr with
  | none => [label ++ " should be a string: None"]
  | some s => if s.length = 0 then [label ++ " cannot be an empty string"] else []

/-- The `addToMenu` entry checks.  A missing key is reported; the `isinstance`
arms cannot fire at the declared `TypedDict` value types (`path` and
`preferredName` strings, `shortKey` string-or-tuple, `nestInSubmenus`
bool-or-int — the latter also gated on truthiness), so they contribute
nothing. -/
def addToMenuItemErrors (add : AddToMenuDict) : List String :=
  (if add.path.isNone then ["`path` missing from Add to Menu dictionary"] else [])
  ++ (if add.preferredName.isNone then
        ["`preferredName` missing from Add to Menu dictionary"] else [])
  ++ (if add.shortKey.isNone then ["`shortKey` missing from Add to Menu dictionary"] else [])

/-- `ExtensionBundle.validate`, returning the boolean result together with the
`_errors` list the call leaves behind.  Checks appear in source order; the
`addToMenu`-is-a-list check and the `additionalKeys` type loop append nothing
at the declared field types and are omitted. -/
def ExtensionBundle.validate (b : ExtensionBundle) (d : DiskState) : Bool × List String :=
  if ¬ d.pathExists b.bundlePath then
    (false, ["Extension bundle must be saved on disk before it can be validated."])
  else
    let suffixErrors :=
      if pathSuffix b.bundlePath ≠ fileExtension then
        ["Extension bundle must be saved with `" ++ fileExtension ++ "` suffix."]
      else []
    if ¬ d.pathExists b.infoPlistPath then
      (false, suffixErrors ++ ["info.plist does not exist, this is required."])
    else if ¬ d.plistParses then
      (false, suffixErrors ++ ["info.plist is not formatted as a *.plist file and unreadable."])
    else
      let errors := suffixErrors
        ++ requiredFieldCheck "Extension name" b.extensionName
        ++ requiredFieldCheck "Developer name" b.developer
        ++ requiredFieldCheck "Developer URL" b.developerURL
        ++ requiredFieldCheck "Extension version" b.version
        ++ b.addToMenu.flatMap addToMenuItemErrors
        ++ (match b.html with
            | some (PyFlag.ofInt i) =>
              if ¬ (i = 0 ∨ i = 1) then
                ["`html` can be an int, but it should be either 0 or 1"]
              else []
            | _ => [])
        ++ (match b.launchAtStartUp with
            | some (PyFlag.ofInt i) =>
              if ¬ (i = 0 ∨ i = 1) then
                ["`launchAtStartUp` can be an int, but it should be either 0 or 1"]
              else []
            | _ => [])
        ++ (if ¬ d.pathExists b.libFolder then
              ["Lib folder does not exist, this is required."] else [])
        ++ (match b.mainScript with
            | some s =>
              if s ≠ "" ∧ ¬ d.pathExists (b.libFolder ++ "/" ++ s) then
                ["Main .py script does not exist, this is required."]
              else []
            | none => [])
        ++ (match b.uninstallScript with
            | some s =>
              if s ≠ "" ∧ ¬ d.pathExists (b.libFolder ++ "/" ++ s) then
                ["Uninstall script does not exist, since it is defined, it is required"]
              else []
            | none => [])
        ++ d.pySyntaxErrors
        ++ (match b.documentationURL with
            | some u =>
              if u ≠ "" ∧ ¬ isValidURL u then ["Documentation URL is not valid"] else []
            | none => [])
        ++ (match b.developerURL with
            | some u =>
              if u ≠ "" ∧ ¬ isValidURL u then ["Developer URL is not valid"] else []
            | none => [])
        ++ (match b.expireDate with
            | some e =>
              if e ≠ "" ∧ ¬ validExpireDate e then [expireDateFormatError] else []
            | none => [])
      (errors.isEmpty, errors)

/-- The message `requiredFieldCheck` produces for a missing or empty field. -/
def requiredFieldMsg (label : String) (attr : Option String) : String :=
  match attr with
  | none => label ++ " should be a string: None"
  | some _ => label ++ " cannot be an empty string"

theorem requiredFieldCheck_eq (label : String) (attr : Option String)
    (h : attr = none ∨ attr = some "") :
    requiredFieldCheck label attr = [requiredFieldMsg label attr] := by
  rcases h with h | h <;> subst h <;> rfl

/-- Claim C5: for a bundle present on disk with a parseable manifest file, a
single `validate` call runs all remaining checks without short-circuiting — a
manifest whose `name`, `developer`, `developerURL` and `version` are
simultaneously missing (or empty, hence not non-empty text) contributes at
least 4 pairwise-distinct error messages to that one call's error list — and,
for every bundle and disk state, the boolean result is `true` exactly when the
error list is empty. -/
theorem validate_reports_all_required_fields (b : ExtensionBundle) (d : DiskState)
    (hroot : d.pathExists b.bundlePath = true)
    (hinfo : d.pathExists b.infoPlistPath = true)
    (hparse : d.plistParses = true)
    (hname : b.extensionName = none ∨ b.extensionName = some "")
    (hdev : b.developer = none ∨ b.developer = some "")
    (hdurl : b.developerURL = none ∨ b.developerURL = some "")
    (hver : b.version = none ∨ b.version = some "") :
    (∃ ms : List String, ms.length = 4 ∧ ms.Pairwise (· ≠ ·)
        ∧ ∀ m ∈ ms, m ∈ (b.validate d).2)
    ∧ (∀ (b' : ExtensionBundle) (d' : DiskState),
        (b'.validate d').1 = true ↔ (b'.validate d').2 = []) := by
  constructor
  · refine ⟨[requiredFieldMsg "Extension name" b.extensionName,
        requiredFieldMsg "Developer name" b.developer,
        requiredFieldMsg "Developer URL" b.developerURL,
        requiredFieldMsg "Extension version" b.version], rfl, ?_, ?_⟩
    · rcases hname with h₁ | h₁ <;> rcases hdev with h₂ | h₂ <;>
        rcases hdurl with h₃ | h₃ <;> rcases hver with h₄ | h₄ <;>
        rw [h₁, h₂, h₃, h₄] <;> decide
    · intro m hm
      have hm' : m = requiredFieldMsg "Extension name" b.extensionName
          ∨ m = requiredFieldMsg "Developer name" b.developer
          ∨ m = requiredFieldMsg "Developer URL" b.developerURL
          ∨ m = requiredFieldMsg "Extension version" b.version := by
        simpa using hm
      rcases hm' with hm' | hm' | hm' | hm' <;> subst hm' <;>
        simp [ExtensionBundle.validate, hroot, hinfo, hparse,
          requiredFieldCheck_eq "Extension name" b.extensionName hname,
          requiredFieldCheck_eq "Developer name" b.developer hdev,
          requiredFieldCheck_eq "Developer URL" b.developerURL hdurl,
          requiredFieldCheck_eq "Extension version" b.version hver]
  · intro b' d'
    unfold ExtensionBundle.validate
    by_cases h₁ : d'.pathExists b'.bundlePath
    · by_cases h₂ : d'.pathExists b'.infoPlistPath
      · by_cases h₃ : d'.plistParses
        · simp [h₁, h₂, h₃, List.isEmpty_iff]
        · simp [h₁, h₂, h₃]
      · simp [h₁, h₂]
    · simp [h₁]

/-- A bundle with every field left at its default. -/
def bundleAllMissing : ExtensionBundle := {}

/-- A disk state on which every path exists, the manifest parses and no script
has a syntax error. -/
def diskAllPresent : DiskState := ⟨fun _ => true, true, []⟩

theorem validate_reports_all_required_fields_witness :
    diskAllPresent.pathExists bundleAllMissing.bundlePath = true
    ∧ ((∃ ms : List String, ms.length = 4 ∧ ms.Pairwise (· ≠ ·)
          ∧ ∀ m ∈ ms, m ∈ (bundleAllMissing.validate diskAllPresent).2)
        ∧ (∀ (b' : ExtensionBundle) (d' : DiskState),
            (b'.validate d').1 = true ↔ (b'.validate d').2 = [])) :=
  ⟨rfl, validate_reports_all_required_fields bundleAllMissing diskAllPresent rfl rfl rfl
    (Or.inl rfl) (Or.inl rfl) (Or.inl rfl) (Or.inl rfl)⟩

/- ----------------------------------------------------------------------
Serialisation (`infoDictionary` + the falsy filter of `save`), `save` and
`load`.
---------------------------------------------------------------------- -/

/-- The info dictionary as a record of optional keys (`none` = key absent). -/
structure PlistRec where
  name : Option String := none
  developer : Option String := none
  developerURL : Option String := none
  launchAtStartUp : Option PyFlag := none
  mainScript : Option String := none
  version : Option String := none
  addToMenu : Option (List AddToMenuDict) := none
  html : Option PyFlag := none
  documentationURL : Option String := none
  uninstallScript : Option String := none
  timeStamp : Option Int := none
  requiresVersionMajor : Option String := none
  requiresVersionMinor : Option String := none
  expireDate : Option String := none
deriving DecidableEq, Repr

/-- `infoDictionary`: the fixed key/value mapping with `None` values dropped;
`addToMenu` is a list (never `None`) and is therefore always present. -/
def ExtensionBundle.infoDictionary (b : ExtensionBundle) : PlistRec :=
  { name := b.extensionName
    developer := b.developer
    developerURL := b.developerURL
    launchAtStartUp := b.launchAtStartUp
    mainScript := b.mainScript
    version := b.version
    addToMenu := some b.addToMenu
    html := b.html
    documentationURL := b.documentationURL
    uninstallScript := b.uninstallScript
    timeStamp := b.timeStamp
    requiresVersionMajor := b.requiresVersionMajor
    requiresVersionMinor := b.requiresVersionMinor
    expireDate := b.expireDate }

/-- Falsy filter on an optional string value (empty string is falsy). -/
def dropFalsyStr : Option String → Option String
  | some s => if s = "" then none else some s
  | none => none

/-- Falsy filter on an optional flag value. -/
def dropFalsyFlag : Option PyFlag → Option PyFlag
  | some f => if f.truthy then some f else none
  | none => none

/-- Falsy filter on the timestamp. -/
def dropFalsyInt : Option Int → Option Int
  | some i => if i = 0 then none else some i
  | none => none

/-- Falsy filter on the menu list (an empty list is falsy). -/
def dropFalsyMenu : Option (List AddToMenuDict) → Option (List AddToMenuDict)
  | some l => if l.isEmpty then none else some l
  | none => none

/-- `{k: v for k, v in plist.items() if v}`: the falsy-value filter `save`
applies before `plistlib.dumps`. -/
def plistDropFalsy (p : PlistRec) : PlistRec :=
  { name := dropFalsyStr p.name
    developer := dropFalsyStr p.developer
    developerURL := dropFalsyStr p.developerURL
    launchAtStartUp := dropFalsyFlag p.launchAtStartUp
    mainScript := dropFalsyStr p.mainScript
    version := dropFalsyStr p.version
    addToMenu := dropFalsyMenu p.addToMenu
    html := dropFalsyFlag p.html
    documentationURL := dropFalsyStr p.documentationURL
    uninstallScript := dropFalsyStr p.uninstallScript
    timeStamp := dropFalsyInt p.timeStamp
    requiresVersionMajor := dropFalsyStr p.requiresVersionMajor
    requiresVersionMinor := dropFalsyStr p.requiresVersionMinor
    expireDate := dropFalsyStr p.expireDate }

/-- The file-system facts `save` consults while staging. -/
structure SaveDisk where
  pathExists : String → Bool

/-- The destination tree a successful `save` leaves behind: the filtered
plist, the copied folders and the side files written.  (The Markdown-to-HTML
conversion inside the staged `html` folder is a pure text transform over the
copied documentation and is not modelled.) -/
structure SavedTree where
  plist : PlistRec
  libSrc : String
  htmlCopied : Bool
  resourcesCopied : Bool
  licenseFile : Option String
  requirementsFile : Option String
deriving DecidableEq, Repr

/-- The top-level names present in the written destination tree. -/
def SavedTree.fileNames (t : SavedTree) : List String :=
  ["lib"]
  ++ (if t.htmlCopied then ["html"] else [])
  ++ (if t.resourcesCopied then ["resources"] else [])
  ++ ["info.plist"]
  ++ (match t.licenseFile with | some _ => ["license"] | none => [])
  ++ (match t.requirementsFile with | some _ => ["requirements.txt"] | none => [])

/-- `ExtensionBundle.save`.  The `assert` preconditions abort in source order
(`hash` must be empty, the destination carries the package suffix and differs
from the bound path, the resolved lib folder — `libFolder or self.libFolder`,
a `Path` and hence truthy — exists).  Then the timestamp is stamped, the tree
is staged (a `copytree` whose chosen source folder is missing raises), the
falsy-filtered plist and the truthy side files are written, and the staged
tree replaces the destination.  A successful call returns the written tree and
the updated bundle; the trailing `return self.validate()` re-runs
`ExtensionBundle.validate` against the destination and is modelled by that
function. -/
def ExtensionBundle.save (b : ExtensionBundle) (destPath : String) (now : Int)
    (libFolder htmlFolder resourcesFolder : Option String) (d : SaveDisk) :
    Except String (SavedTree × ExtensionBundle) :=
  if b.hash ≠ "" then .error "Cannot save this extension"
  else if pathSuffix destPath ≠ fileExtension then .error "Wrong file extension"
  else if destPath = b.bundlePath then .error "You cannot override the same file"
  else
    let libSrc := libFolder.getD b.libFolder
    if ¬ d.pathExists libSrc then .error "Lib folder is required to save"
    else
      let b' := { b with timeStamp := some now }
      let htmlWanted := (match htmlFolder with
        | some h => d.pathExists h
        | none => false) || d.pathExists b.htmlFolder
      let htmlSrc := htmlFolder.getD b.htmlFolder
      if htmlWanted && !(d.pathExists htmlSrc) then
        .error "copytree: html source folder does not exist"
      else
        let resourcesWanted := (match resourcesFolder with
          | some r => d.pathExists r
          | none => false) || d.pathExists b.resourcesFolder
        let resourcesSrc := resourcesFolder.getD b.resourcesFolder
        if resourcesWanted && !(d.pathExists resourcesSrc) then
          .error "copytree: resources source folder does not exist"
        else
          .ok ({ plist := plistDropFalsy b'.infoDictionary
                 libSrc := libSrc
                 htmlCopied := htmlWanted
                 resourcesCopied := resourcesWanted
                 licenseFile := if b'.license ≠ "" then some b'.license else none
                 requirementsFile :=
                   if b'.requirements ≠ "" then some b'.requirements else none },
               b')

/-- `plist[key]`: direct dictionary indexing — `KeyError` when absent. -/
def requireKey {α : Type} (keyName : String) : Option α → Except String α
  | some v => .ok v
  | none => .error ("KeyError: " ++ keyName)

/-- `ExtensionBundle.load` applied to an on-disk tree, presented as its plist
record and side files (`.hash`, `license`, `requirements.txt`; a missing side
file reads as `""`).  `name` is read through the truthy `get`-or-chain (there
is no `extensionName` key in a written plist), while `developer`,
`developerURL`, `launchAtStartUp`, `mainScript`, `version` and `html` are
indexed directly, raising `KeyError` in constructor-argument order; the
remaining keys use `get` with a default. -/
def loadBundle (p : PlistRec) (bundlePath : String)
    (hashFile licenseFile requirementsFile : Option String) :
    Except String ExtensionBundle := do
  let developer ← requireKey "developer" p.developer
  let developerURL ← requireKey "developerURL" p.developerURL
  let launchAtStartUp ← requireKey "launchAtStartUp" p.launchAtStartUp
  let mainScript ← requireKey "mainScript" p.mainScript
  let version ← requireKey "version" p.version
  let html ← requireKey "html" p.html
  pure
    { extensionName := (match p.name with
        | some nm => if nm ≠ "" then some nm else none
        | none => none)
      path := some bundlePath
      developer := some developer
      developerURL := some developerURL
      launchAtStartUp := some launchAtStartUp
      mainScript := some mainScript
      version := some version
      addToMenu := p.addToMenu.getD []
      html := some html
      hash := hashFile.getD ""
      documentationURL := p.documentationURL
      uninstallScript := p.uninstallScript
      timeStamp := p.timeStamp
      requiresVersionMajor := p.requiresVersionMajor
      requiresVersionMinor := p.requiresVersionMinor
      expireDate := p.expireDate
      license := licenseFile.getD ""
      requirements := requirementsFile.getD "" }

/-- Save to `destPath`, then load the written tree back.  A tree written by
this `save` never contains a `.hash` marker, so the hash side file is absent. -/
def roundTrip (b : ExtensionBundle) (destPath : String) (now : Int) (d : SaveDisk) :
    Except String ExtensionBundle :=
  match b.save destPath now none none none d with
  | .error e => .error e
  | .ok (tr, _) => loadBundle tr.plist destPath none tr.licenseFile tr.requirementsFile

/-- A manifest with the required fields and an expiry date set. -/
def bundleWithExpiry : ExtensionBundle :=
  { extensionName := some "Demo", developer := some "Dev",
    developerURL := some "https://example.com", version := some "1.0",
    expireDate := some "2030-01-01" }

/-- A disk on which every queried path exists. -/
def diskEverything : SaveDisk := ⟨fun _ => true⟩

/-- Claim C3 (code_bug evaluation): `Lib/extensionBundle.py`'s `save` never
writes the hash marker — no destination tree it produces can contain `.hash`,
whatever the manifest — so saving a manifest with `expireDate` set succeeds
with no `.hash` in the destination, contradicting the claimed
expireDate-iff-hash coupling.  Only the legacy `_extensionBundle.py` `save`
writes the marker (`if self.expireDate:` after the copy), which is what the
repository's own test `test_expireDate` asserts. -/
theorem save_never_writes_hash_marker :
    bundleWithExpiry.expireDate = some "2030-01-01"
    ∧ (∃ tr b', bundleWithExpiry.save "Demo.roboFontExt" 1 none none none diskEverything =
        .ok (tr, b') ∧ ".hash" ∉ tr.fileNames)
    ∧ (∀ tr : SavedTree, ".hash" ∉ tr.fileNames) := by
  refine ⟨rfl, ⟨_, _, rfl, by decide⟩, ?_⟩
  intro tr
  unfold SavedTree.fileNames
  rcases tr with ⟨p, ls, hcopy, rcopy, lfile, reqfile⟩
  cases hcopy <;> cases rcopy <;> cases lfile <;> cases reqfile <;> simp

/-- Claim C6: `save` fails — an error result, carrying no written tree and no
updated bundle — whenever the destination path equals the bundle's currently
bound path (regardless of the manifest's content), and likewise when the
destination's suffix is not the fixed package suffix or when the resolved lib
folder does not exist. -/
theorem save_precondition_failures (b : ExtensionBundle) (destPath : String) (now : Int)
    (libFolder htmlFolder resourcesFolder : Option String) (d : SaveDisk)
    (h : destPath = b.bundlePath
      ∨ pathSuffix destPath ≠ fileExtension
      ∨ d.pathExists (libFolder.getD b.libFolder) = false) :
    ∃ msg, b.save destPath now libFolder htmlFolder resourcesFolder d = .error msg := by
  unfold ExtensionBundle.save
  by_cases h₁ : b.hash ≠ ""
  · simp only [if_pos h₁]; exact ⟨_, rfl⟩
  · simp only [if_neg h₁]
    by_cases h₂ : pathSuffix destPath ≠ fileExtension
    · simp only [if_pos h₂]; exact ⟨_, rfl⟩
    · simp only [if_neg h₂]
      by_cases h₃ : destPath = b.bundlePath
      · simp only [if_pos h₃]; exact ⟨_, rfl⟩
      · simp only [if_neg h₃]
        rcases h with h | h | h
        · exact absurd h h₃
        · exact absurd h h₂
        · have h₄ : ¬ d.pathExists (libFolder.getD b.libFolder) = true := by simp [h]
          simp only [if_pos h₄]
          exact ⟨_, rfl⟩

theorem save_precondition_failures_witness :
    ("Demo" = bundleWithExpiry.bundlePath
      ∨ pathSuffix "Demo" ≠ fileExtension
      ∨ diskEverything.pathExists ((none : Option String).getD bundleWithExpiry.libFolder) = false)
    ∧ ∃ msg, bundleWithExpiry.save "Demo" 1 none none none diskEverything = .error msg :=
  ⟨Or.inl (by decide),
    save_precondition_failures bundleWithExpiry "Demo" 1 none none none diskEverything
      (Or.inl (by decide))⟩

/-- Claim C10: a bundle whose `hash` attribute is a non-empty string — as
`load` produces for every tree carrying a non-empty `.hash` marker — cannot be
re-saved through this interface: for every destination path and folder
arguments, `save` stops at its very first precondition with
`"Cannot save this extension"`, before the timestamp is stamped and before
anything is staged or written (the error result carries no tree and no updated
bundle). -/
theorem save_rejects_hashed_bundle (b : ExtensionBundle) (destPath : String) (now : Int)
    (libFolder htmlFolder resourcesFolder : Option String) (d : SaveDisk)
    (h : b.hash ≠ "") :
    b.save destPath now libFolder htmlFolder resourcesFolder d =
      .error "Cannot save this extension" := by
  simp [ExtensionBundle.save, h]

/-- A bundle as loaded from a distributed tree with a `.hash` marker. -/
def bundleWithHash : ExtensionBundle := { hash := "0a1b2c" }

theorem save_rejects_hashed_bundle_witness :
    bundleWithHash.hash ≠ ""
    ∧ bundleWithHash.save "X.roboFontExt" 1 none none none diskEverything =
        .error "Cannot save this extension" :=
  ⟨by decide,
    save_rejects_hashed_bundle bundleWithHash "X.roboFontExt" 1 none none none
      diskEverything (by decide)⟩

/-- A manifest with the required fields, truthy `mainScript` and `html`, and
`launchAtStartUp` explicitly set to `False`. -/
def bundleLaunchFalse : ExtensionBundle :=
  { extensionName := some "Demo", developer := some "Dev",
    developerURL := some "https://example.com", version := some "1.0",
    mainScript := some "main.py", html := some (PyFlag.ofBool true),
    launchAtStartUp := some (PyFlag.ofBool false) }

/-- Claim C4 counterexample: a manifest with all required fields set and
`launchAtStartUp` explicitly set to `False` does not survive the round trip —
`save` drops the falsy value from the plist and `load` then raises `KeyError`
on the missing key, so the explicitly-set attribute is not reproduced (no
Manifest is reproduced at all). -/
theorem roundTrip_drops_falsy_attribute :
    bundleLaunchFalse.launchAtStartUp = some (PyFlag.ofBool false)
    ∧ roundTrip bundleLaunchFalse "out.roboFontExt" 1 diskEverything =
        .error "KeyError: launchAtStartUp" := by
  exact ⟨rfl, rfl⟩

/-- Absent, or set to a truthy (non-empty) string. -/
def noneOrTruthy (o : Option String) : Prop := o = none ∨ ∃ s, o = some s ∧ s ≠ ""

theorem dropFalsyStr_id (o : Option String) (h : noneOrTruthy o) : dropFalsyStr o = o := by
  rcases h with h | ⟨s, h, hs⟩ <;> subst h <;> simp [dropFalsyStr]
  exact hs

theorem dropFalsyMenu_getD (l : List AddToMenuDict) :
    (dropFalsyMenu (some l)).getD [] = l := by
  cases l <;> simp [dropFalsyMenu]

theorem ifTruthyStr_getD (s : String) : (if s ≠ "" then some s else none).getD "" = s := by
  by_cases h : s = "" <;> simp [h]

/-- Claim C4 (amended): the round trip `load ∘ save` reproduces every
explicitly-set attribute whose value is truthy — provided the keys `load`
indexes unconditionally (`developer`, `developerURL`, `launchAtStartUp`,
`mainScript`, `version`, `html`) are among those set — with `timeStamp`
refreshed to the save-time stamp and `path` rebound to the destination;
attributes set to falsy values are omitted by `save`'s plist filter and are
not reproduced (for the unconditionally-indexed keys `load` then fails
outright, as the counterexample shows). -/
theorem roundTrip_reproduces_truthy_attributes (b : ExtensionBundle) (destPath : String)
    (now : Int) (d : SaveDisk)
    (hhash : b.hash = "")
    (hname : ∃ s, b.extensionName = some s ∧ s ≠ "")
    (hdev : ∃ s, b.developer = some s ∧ s ≠ "")
    (hdurl : ∃ s, b.developerURL = some s ∧ s ≠ "")
    (hver : ∃ s, b.version = some s ∧ s ≠ "")
    (hmain : ∃ s, b.mainScript = some s ∧ s ≠ "")
    (hhtml : ∃ f, b.html = some f ∧ f.truthy = true)
    (hlaunch : ∃ f, b.launchAtStartUp = some f ∧ f.truthy = true)
    (hdoc : noneOrTruthy b.documentationURL)
    (hunin : noneOrTruthy b.uninstallScript)
    (hmaj : noneOrTruthy b.requiresVersionMajor)
    (hmin : noneOrTruthy b.requiresVersionMinor)
    (hexp : noneOrTruthy b.expireDate)
    (hnow : now ≠ 0)
    (hsuffix : pathSuffix destPath = fileExtension)
    (hdest : destPath ≠ b.bundlePath)
    (hlib : d.pathExists b.libFolder = true) :
    roundTrip b destPath now d =
      .ok { b with path := some destPath, timeStamp := some now } := by
  obtain ⟨ns, hns, hns'⟩ := hname
  obtain ⟨ds, hds, hds'⟩ := hdev
  obtain ⟨us, hus, hus'⟩ := hdurl
  obtain ⟨vs, hvs, hvs'⟩ := hver
  obtain ⟨ms, hms, hms'⟩ := hmain
  obtain ⟨hf, hhf, hhf'⟩ := hhtml
  obtain ⟨lf, hlf, hlf'⟩ := hlaunch
  unfold roundTrip ExtensionBundle.save
  rw [if_neg (by simp [hhash]), if_neg (by simp [hsuffix]), if_neg hdest]
  simp only [Option.getD_none]
  rw [if_neg (by simp [hlib])]
  simp only [Bool.false_or]
  rw [if_neg (by simp [Bool.and_not_self]), if_neg (by simp [Bool.and_not_self])]
  simp only [loadBundle, ExtensionBundle.infoDictionary, plistDropFalsy,
    hns, hds, hus, hvs, hms, hhf, hlf,
    dropFalsyStr_id _ hdoc, dropFalsyStr_id _ hunin, dropFalsyStr_id _ hmaj,
    dropFalsyStr_id _ hmin, dropFalsyStr_id _ hexp,
    dropFalsyStr, dropFalsyFlag, dropFalsyInt, hns', hds', hus', hvs', hms', hhf', hlf',
    hnow, if_false, ite_false, requireKey, dropFalsyMenu_getD, ifTruthyStr_getD,
    Except.bind, bind, pure, Except.pure, Option.getD_none, hhash]
  simp [hns', hds', hus', hvs', hms', hnow, hhash]
  exact ⟨dropFalsyStr_id _ hdoc, dropFalsyStr_id _ hunin, dropFalsyStr_id _ hmaj,
    dropFalsyStr_id _ hmin, dropFalsyStr_id _ hexp⟩

/-- A manifest whose set attributes are all truthy. -/
def bundleAllTruthy : ExtensionBundle :=
  { extensionName := some "Demo", developer := some "Dev",
    developerURL := some "https://example.com", version := some "1.0",
    mainScript := some "main.py", html := some (PyFlag.ofBool true),
    launchAtStartUp := some (PyFlag.ofBool true),
    documentationURL := some "https://docs.example.com",
    license := "MIT", requirements := "drawBot" }

theorem roundTrip_reproduces_truthy_attributes_witness :
    bundleAllTruthy.hash = ""
    ∧ pathSuffix "out.roboFontExt" = fileExtension
    ∧ roundTrip bundleAllTruthy "out.roboFontExt" 7 diskEverything =
        .ok { bundleAllTruthy with path := some "out.roboFontExt", timeStamp := some 7 } :=
  ⟨rfl, by decide,
    roundTrip_reproduces_truthy_attributes bundleAllTruthy "out.roboFontExt" 7 diskEverything
      rfl ⟨"Demo", rfl, by decide⟩ ⟨"Dev", rfl, by decide⟩
      ⟨"https://example.com", rfl, by decide⟩ ⟨"1.0", rfl, by decide⟩
      ⟨"main.py", rfl, by decide⟩ ⟨PyFlag.ofBool true, rfl, rfl⟩
      ⟨PyFlag.ofBool true, rfl, rfl⟩
      (Or.inr ⟨"https://docs.example.com", rfl, by decide⟩) (Or.inl rfl)
      (Or.inl rfl) (Or.inl rfl) (Or.inl rfl) (by decide) (by decide) (by decide) rfl⟩
